import Mathlib

/-!
Verification of the change-stream shard resolution and traversal engine
(`general_utils/aws_wrappers/dynamo/change_streams.py`).

Shallow embedding conventions:
* A shard descriptor dictionary becomes the `Shard` structure; the optional
  `EndingSequenceNumber` / `ParentShardId` keys become `Option String` fields
  (a `none` field models an absent key, so a Python `KeyError` on direct
  subscripting is modelled explicitly at each access site).
* Sequence-number tokens are decimal numeric strings; Python's `float()`
  conversion used for comparisons is modelled as exact decimal parsing
  (`parseNum?`), returning `none` for a malformed token, which models the
  `ValueError` that `float()` would raise.
* Python's `sorted` with a key function is a stable sort; it is embedded as a
  stable insertion sort by the same key, which produces the same list for any
  total preorder on keys.
* Methods performing network calls are embedded over explicit scripts of the
  collaborator's responses; exceptions become explicit result constructors.
-/

structure SequenceNumberRange where
  StartingSequenceNumber : String
  EndingSequenceNumber : Option String
deriving DecidableEq

structure Shard where
  ShardId : String
  ParentShardId : Option String
  SequenceNumberRange : SequenceNumberRange
deriving DecidableEq

/-- Code-point lexicographic comparison of character lists, as Python compares
strings. -/
def charListLe : List Char → List Char → Bool
  | [], _ => true
  | _ :: _, [] => false
  | a :: as, b :: bs =>
    if a.toNat < b.toNat then true
    else if b.toNat < a.toNat then false
    else charListLe as bs

/-- Python string comparison (`<=` on the raw strings), used by `sorted` on the
`StartingSequenceNumber` key. -/
def strLe (a b : String) : Bool := charListLe a.data b.data

/-- Nonempty all-digit string: the well-formed shape of a sequence-number
token. -/
def isDigits (s : String) : Bool := !s.data.isEmpty && s.data.all Char.isDigit

/-- Numeric value of a decimal digit string. -/
def parseNat (s : String) : Nat := s.data.foldl (fun n c => n * 10 + (c.toNat - 48)) 0

/-- Rounding of a nonnegative integer to the nearest value with a 53-bit
significand, ties to even: the value Python `float()` yields on a decimal
integer literal within the double's finite range (CPython's conversion is
correctly rounded). Values below `2 ^ 53` are exact; for larger values the
low `k = log2 v - 52` bits are rounded away, so distinct long tokens can
collide (for example `10000000000000000001` and `10000000000000000002`
round to the same double). The overflow-to-infinity threshold near
`10 ^ 308` lies outside the modelled token range: `tokOk` bounds tokens to
300 digits, and the service's tokens run about 40 digits. -/
def floatRound (v : Nat) : Nat :=
  if v < 2 ^ 53 then v
  else
    let k := v.log2 - 52
    let q := v / 2 ^ k
    let r := v % 2 ^ k
    if 2 ^ (k - 1) < r ∨ (r = 2 ^ (k - 1) ∧ q % 2 = 1) then (q + 1) * 2 ^ k
    else q * 2 ^ k

/-- The double value the code's `float()` computes for a digit-string token. -/
def pyFloat (s : String) : Nat := floatRound (parseNat s)

/-- A well-formed token: a decimal numeral short enough to stay far below the
double overflow threshold (`10 ^ 300` versus roughly `1.8 * 10 ^ 308`). -/
def tokOk (s : String) : Bool := isDigits s && decide (s.data.length ≤ 300)

/-- Model of Python `float()` on a sequence-number token: `none` (a
`ValueError`) for a non-numeral, otherwise the correctly rounded double
value of the numeral (`floatRound`; exact below `2 ^ 53`). -/
def parseNum? (s : String) : Option Nat := if isDigits s then some (pyFloat s) else none

/-- `StreamOrchestrator.is_shard_open`: a shard is open when its
`SequenceNumberRange` has no `EndingSequenceNumber` key. -/
def is_shard_open (x : Shard) : Bool := x.SequenceNumberRange.EndingSequenceNumber.isNone

/-- `StreamOrchestrator.get_open_shards`: filter the shard array by
`is_shard_open`. -/
def get_open_shards (shardArray : List Shard) : List Shard := shardArray.filter is_shard_open

/-- The `sorted` key order of `get_closed_shards`: plain string comparison of
the raw `StartingSequenceNumber` values. -/
def shardKeyLe (a b : Shard) : Bool :=
  strLe a.SequenceNumberRange.StartingSequenceNumber b.SequenceNumberRange.StartingSequenceNumber

/-- Stable insertion of a shard into a list ordered by the raw
`StartingSequenceNumber` string. -/
def orderedInsertByStart (a : Shard) : List Shard → List Shard
  | [] => [a]
  | b :: l =>
    if shardKeyLe a b then a :: b :: l
    else b :: orderedInsertByStart a l

/-- Stable sort by the raw `StartingSequenceNumber` string, the embedding of
`sorted(..., key=lambda x: x["SequenceNumberRange"]["StartingSequenceNumber"])`. -/
def sortByStartKey : List Shard → List Shard
  | [] => []
  | a :: l => orderedInsertByStart a (sortByStartKey l)

/-- `StreamOrchestrator.get_closed_shards`: shards having an
`EndingSequenceNumber`, sorted by the `StartingSequenceNumber` string key. -/
def get_closed_shards (shardArray : List Shard) : List Shard :=
  sortByStartKey (shardArray.filter (fun x => x.SequenceNumberRange.EndingSequenceNumber.isSome))

/-- Outcome of evaluating the `find_shard_info` filter predicate on one shard:
a range match, a non-match, a `KeyError` (missing `EndingSequenceNumber` read
after `start <= seq` held), or a `ValueError` (malformed token under
`float()`). -/
inductive ShardTestStep where
  | matches
  | nomatch
  | keyErr
  | valErr
deriving DecidableEq

/-- One evaluation of the chained comparison
`float(start) <= float(seq) <= float(end)` from
`StreamOrchestrator.find_shard_info`, with Python's left-to-right
short-circuit order: the right operand (`EndingSequenceNumber`) is only read
when `float(start) <= float(seq)` holds. -/
def shardTest (seq : String) (x : Shard) : ShardTestStep :=
  match parseNum? x.SequenceNumberRange.StartingSequenceNumber, parseNum? seq with
  | some a, some b =>
    if a ≤ b then
      match x.SequenceNumberRange.EndingSequenceNumber with
      | none => ShardTestStep.keyErr
      | some es =>
        match parseNum? es with
        | none => ShardTestStep.valErr
        | some c => if b ≤ c then ShardTestStep.matches else ShardTestStep.nomatch
    else ShardTestStep.nomatch
  | _, _ => ShardTestStep.valErr

inductive FindErr where
  | keyError
  | valueError
deriving DecidableEq

/-- `list(filter(...))` over the shard array in `find_shard_info`: elements are
tested in order and the first exception aborts the whole list construction. -/
def filterSeq (seq : String) : List Shard → Except FindErr (List Shard)
  | [] => Except.ok []
  | x :: rest =>
    match shardTest seq x with
    | ShardTestStep.valErr => Except.error FindErr.valueError
    | ShardTestStep.keyErr => Except.error FindErr.keyError
    | ShardTestStep.matches =>
      match filterSeq seq rest with
      | Except.error e => Except.error e
      | Except.ok l => Except.ok (x :: l)
    | ShardTestStep.nomatch => filterSeq seq rest

inductive FindResult where
  | found (s : Shard)
  | notFound
  | valueError
deriving DecidableEq

/-- `StreamOrchestrator.find_shard_info`: filter the snapshot by the chained
range comparison; a `KeyError` is caught and replaced by the open-shard list;
the first element of the surviving list is returned, `None` when it is empty;
a `ValueError` from `float()` propagates uncaught. -/
def find_shard_info (shardArray : List Shard) (seq : String) : FindResult :=
  match filterSeq seq shardArray with
  | Except.error FindErr.valueError => FindResult.valueError
  | Except.error FindErr.keyError =>
    match get_open_shards shardArray with
    | [] => FindResult.notFound
    | s :: _ => FindResult.found s
  | Except.ok [] => FindResult.notFound
  | Except.ok (s :: _) => FindResult.found s

/-- `StreamOrchestrator.filter_shard_array`: select by `ShardId` and take
element `[0]`; the `none` result models the `IndexError` raised when the
filtered list is empty. -/
def filter_shard_array (shard_id : String) (shardArray : List Shard) : Option Shard :=
  (shardArray.filter (fun x => x.ShardId == shard_id)).head?

/-- The child lookup inside `get_closed_children_shards`:
`filter(lambda x: x["ParentShardId"] == starting_shard["ShardId"], shard_array)`. -/
def childFilter (shardArray : List Shard) (sid : String) : List Shard :=
  shardArray.filter (fun x => x.ParentShardId == some sid)

/-- The child-lookup lambda subscripts `x["ParentShardId"]` on every element of
the array, so a single descriptor without that key raises `KeyError` for the
whole filter. -/
def allParentsPresent (shardArray : List Shard) : Bool :=
  shardArray.all (fun x => x.ParentShardId.isSome)

inductive ChildrenResult where
  | ok (shards : List Shard)
  | keyError
  | fuelOut
deriving DecidableEq

/-- `StreamOrchestrator.get_closed_children_shards`: repeatedly take the first
child of the current shard, appending it and descending while it is closed,
stopping at a missing or open child. The Python `while True` loop can diverge
on a cyclic parent chain, so the embedding carries explicit fuel; `fuelOut`
marks a run that did not finish within the given fuel. -/
def get_closed_children_shards (shardArray : List Shard) : Nat → Shard → List Shard → ChildrenResult
  | 0, _, _ => ChildrenResult.fuelOut
  | fuel + 1, startingShard, acc =>
    if allParentsPresent shardArray then
      match childFilter shardArray startingShard.ShardId with
      | [] => ChildrenResult.ok acc
      | child :: _ =>
        if child.SequenceNumberRange.EndingSequenceNumber.isSome then
          get_closed_children_shards shardArray fuel child (acc ++ [child])
        else ChildrenResult.ok acc
    else ChildrenResult.keyError

/-- Decidable description of a closed-child chain as the code walks it: from
`s`, the first child in snapshot order is the next chain element and is
closed, and after the last chain element the first child is absent or open. -/
def isChainFrom (shardArray : List Shard) : Shard → List Shard → Bool
  | s, [] =>
    match (childFilter shardArray s.ShardId).head? with
    | none => true
    | some c => !c.SequenceNumberRange.EndingSequenceNumber.isSome
  | s, b :: rest =>
    ((childFilter shardArray s.ShardId).head? == some b)
      && b.SequenceNumberRange.EndingSequenceNumber.isSome
      && isChainFrom shardArray b rest

structure IteratorArgs where
  StreamArn : String
  ShardId : String
  ShardIteratorType : String
  SequenceNumber : Option String
deriving DecidableEq

/-- Result of `AwsChangeStream.create_shard_iterator`: `typeError` models the
`TypeError` for an invalid iterator type, `valueError` the `ValueError` for a
missing sequence number — both raised before any collaborator call — and
`request` carries the argument dictionary passed on to
`client.get_shard_iterator`. -/
inductive IterResult where
  | typeError
  | valueError
  | request (args : IteratorArgs)
deriving DecidableEq

def validIteratorTypes : List String :=
  ["TRIM_HORIZON", "AT_SEQUENCE_NUMBER", "AFTER_SEQUENCE_NUMBER", "LATEST"]

/-- `AwsChangeStream.create_shard_iterator`: validate the iterator type,
require a `SequenceNumber` for the two sequence-relative types (attaching it
to the argument dictionary), and otherwise issue the collaborator request. -/
def create_shard_iterator (streamArn iterator_type shard_id : String)
    (SequenceNumber : Option String) : IterResult :=
  match validIteratorTypes.contains iterator_type with
  | false => IterResult.typeError
  | true =>
    match iterator_type == "AFTER_SEQUENCE_NUMBER" || iterator_type == "AT_SEQUENCE_NUMBER",
        SequenceNumber with
    | true, none => IterResult.valueError
    | true, some sn => IterResult.request ⟨streamArn, shard_id, iterator_type, some sn⟩
    | false, _ => IterResult.request ⟨streamArn, shard_id, iterator_type, none⟩

def iterFails : IterResult → Bool
  | IterResult.typeError => true
  | IterResult.valueError => true
  | IterResult.request _ => false

def iterProceeds : IterResult → Bool
  | IterResult.request _ => true
  | _ => false

/-- One `get_records` page: the record batch and the optional
`NextShardIterator` key. -/
structure Page where
  Records : List String
  NextShardIterator : Option String
deriving DecidableEq

/-- One iteration's worth of collaborator behaviour for the `get_stream_data`
loop: the fetched page, whether the wall-clock check `(stop - start) > 1`
fires this iteration, and the refreshed snapshot a firing check would
describe. -/
structure IterEvent where
  page : Page
  elapsed : Bool
  snapshot : List Shard
deriving DecidableEq

/-- How a `get_stream_data` session ends. `normalExit` is the loop `break`
(the method returns `None`); `closedResult` is the
`return {"shard_id": ..., "closed": True}` path; `typeErrorNone` is the
uncaught `TypeError` from subscripting `data["Records"]` when
`get_data_from_shard` returned `None`; `indexError` is the uncaught
`IndexError` from `filter_shard_array`; `scriptEnd` marks a loop still
running when the scripted responses are exhausted. -/
inductive StreamOutcome where
  | normalExit
  | closedResult (shard_id : String)
  | typeErrorNone
  | indexError
  | scriptEnd
deriving DecidableEq

/-- The open-shard state re-check body (lines 244-258): when tailing and the
1-second check fires, refresh the snapshot, locate this shard with
`filter_shard_array` (`none` = `IndexError`), and return the closed-detected
dictionary when the shard is no longer open. `none` means the loop
continues. -/
def recheckResult (open_shard : Bool) (shard_id : String) (e : IterEvent) :
    Option (StreamOutcome × Nat) :=
  if open_shard && e.elapsed then
    match filter_shard_array shard_id e.snapshot with
    | none => some (StreamOutcome.indexError, 1)
    | some d =>
      if !is_shard_open d then some (StreamOutcome.closedResult shard_id, 1)
      else none
  else none

/-- The `while True` loop of `StreamOrchestrator.get_stream_data`, driven by a
script of per-iteration collaborator behaviour; returns the outcome and the
number of page fetches performed. A page without `NextShardIterator` makes
`get_data_from_shard` return `None`: the closed-shard branch breaks, while
the open-shard branch falls through to `data["Records"]` and raises
`TypeError`. The record budget breaks when `counter == limit_records - 1`,
and `limit_records` equal to `0` is falsy in Python, disabling the budget. -/
def get_stream_data (open_shard : Bool) (shard_id : String) (limit_records : Option Nat) :
    List IterEvent → Nat → StreamOutcome × Nat
  | [], _ => (StreamOutcome.scriptEnd, 0)
  | e :: rest, counter =>
    if e.page.NextShardIterator.isNone then
      if open_shard then (StreamOutcome.typeErrorNone, 1) else (StreamOutcome.normalExit, 1)
    else
      match recheckResult open_shard shard_id e with
      | some r => r
      | none =>
        match limit_records with
        | some n =>
          if n = 0 then
            let r := get_stream_data open_shard shard_id limit_records rest counter
            (r.1, r.2 + 1)
          else if counter = n - 1 then (StreamOutcome.normalExit, 1)
          else
            let r := get_stream_data open_shard shard_id limit_records rest (counter + 1)
            (r.1, r.2 + 1)
        | none =>
          let r := get_stream_data open_shard shard_id limit_records rest counter
          (r.1, r.2 + 1)

/-- An event satisfying `goodEvent` lets one loop iteration reach the budget
check: the page carries a `NextShardIterator` and no firing state re-check
ends the session. -/
def goodEvent (open_shard : Bool) (shard_id : String) (e : IterEvent) : Bool :=
  e.page.NextShardIterator.isSome && (recheckResult open_shard shard_id e).isNone

/-- The argument tuple of one `get_stream_data` invocation, as issued by the
orchestration methods. -/
structure Call where
  open_shard : Bool
  limit_records : Option Nat
  iterator_type : String
  shard_id : String
  SequenceNumber : Option String
deriving DecidableEq

/-- `StreamOrchestrator.trim_horizon_closed_shards`: one closed-drain
`get_stream_data(False, None, "TRIM_HORIZON", shard_id)` call per listed
shard, in list order. -/
def trim_horizon_closed_shards_calls (closedShardsArray : List Shard) : List Call :=
  closedShardsArray.map (fun s => ⟨false, none, "TRIM_HORIZON", s.ShardId, none⟩)

/-- The sequence of `get_stream_data` calls `StreamOrchestrator.process_records`
issues, as a function of the snapshot, the resume sequence number and the
record budget, mirroring `__post_init__` plus `process_records`. `none`
models an uncaught exception while planning: a `ValueError` inside
`find_shard_info`, an `IndexError` from `open_shards[0]`, or a `KeyError`
(or non-termination within `fuel`) in the child-chain walk. -/
def process_records_plan (shardArray : List Shard) (seq : String) (limit : Option Nat)
    (fuel : Nat) : Option (List Call) :=
  match find_shard_info shardArray seq with
  | FindResult.valueError => none
  | FindResult.notFound =>
    match (get_open_shards shardArray).head? with
    | none => none
    | some o =>
      some (trim_horizon_closed_shards_calls (get_closed_shards shardArray)
        ++ [⟨true, limit, "TRIM_HORIZON", o.ShardId, none⟩])
  | FindResult.found s =>
    if is_shard_open s then
      match (get_open_shards shardArray).head? with
      | none => none
      | some o => some [⟨true, limit, "AFTER_SEQUENCE_NUMBER", o.ShardId, some seq⟩]
    else
      match get_closed_children_shards shardArray fuel s [] with
      | ChildrenResult.keyError => none
      | ChildrenResult.fuelOut => none
      | ChildrenResult.ok kids =>
        match (get_open_shards shardArray).head? with
        | none => none
        | some o =>
          some ([⟨false, none, "AFTER_SEQUENCE_NUMBER", s.ShardId, some seq⟩]
            ++ trim_horizon_closed_shards_calls kids
            ++ [⟨true, limit, "TRIM_HORIZON", o.ShardId, none⟩])

/-- A shard whose range contains the position under the code's comparison
(`float(start) <= float(seq) <= float(end)`, on the rounded double
values). -/
def containsSeq (seq : String) (x : Shard) : Bool :=
  match x.SequenceNumberRange.EndingSequenceNumber with
  | none => false
  | some es =>
    decide (pyFloat x.SequenceNumberRange.StartingSequenceNumber ≤ pyFloat seq)
      && decide (pyFloat seq ≤ pyFloat es)

/-- A shard whose closed range contains the position strictly under the
code's `float()` comparison. -/
def strictlyInside (seq : String) (x : Shard) : Bool :=
  match x.SequenceNumberRange.EndingSequenceNumber with
  | none => false
  | some es =>
    decide (pyFloat x.SequenceNumberRange.StartingSequenceNumber < pyFloat seq)
      && decide (pyFloat seq < pyFloat es)

/-- All sequence-number tokens of the descriptor are well-formed numerals, so
`float()` succeeds on them and yields a finite double. -/
def wfShard (x : Shard) : Bool :=
  tokOk x.SequenceNumberRange.StartingSequenceNumber
    && (match x.SequenceNumberRange.EndingSequenceNumber with
        | none => true
        | some es => tokOk es)

/-- A descriptor on which the `find_shard_info` filter raises `KeyError`: the
`EndingSequenceNumber` key is absent and the left comparison
`float(start) <= float(seq)` held on the rounded values, so the missing key
is subscripted. -/
def openTrigger (seq : String) (x : Shard) : Bool :=
  x.SequenceNumberRange.EndingSequenceNumber.isNone
    && decide (pyFloat x.SequenceNumberRange.StartingSequenceNumber ≤ pyFloat seq)

theorem charListLe_total (as bs : List Char) :
    charListLe as bs = true ∨ charListLe bs as = true := by
  induction as generalizing bs with
  | nil => left; rfl
  | cons a as ih =>
    cases bs with
    | nil => right; rfl
    | cons b bs =>
      simp only [charListLe]
      rcases Nat.lt_trichotomy a.toNat b.toNat with h | h | h
      · left; simp [h]
      · simp [h, Nat.lt_irrefl]
        exact ih bs
      · right; simp [h, Nat.lt_asymm h]

theorem charListLe_trans (as bs cs : List Char)
    (h1 : charListLe as bs = true) (h2 : charListLe bs cs = true) :
    charListLe as cs = true := by
  induction as generalizing bs cs with
  | nil => rfl
  | cons a as ih =>
    cases bs with
    | nil => simp [charListLe] at h1
    | cons b bs =>
      cases cs with
      | nil => simp [charListLe] at h2
      | cons c cs =>
        simp only [charListLe] at h1 h2 ⊢
        rcases Nat.lt_trichotomy a.toNat b.toNat with hab | hab | hab
        · rcases Nat.lt_trichotomy b.toNat c.toNat with hbc | hbc | hbc
          · simp [Nat.lt_trans hab hbc]
          · simp [hbc ▸ hab]
          · simp [hbc, Nat.lt_asymm hbc] at h2
        · rcases Nat.lt_trichotomy b.toNat c.toNat with hbc | hbc | hbc
          · simp [hab ▸ hbc]
          · have hac : a.toNat = c.toNat := hab.trans hbc
            simp [hab, Nat.lt_irrefl] at h1
            simp [hbc, Nat.lt_irrefl] at h2
            simp [hac, Nat.lt_irrefl]
            exact ih bs cs h1 h2
          · simp [hbc, Nat.lt_asymm hbc] at h2
        · simp [hab, Nat.lt_asymm hab] at h1

theorem shardKeyLe_total (a b : Shard) : shardKeyLe a b = true ∨ shardKeyLe b a = true :=
  charListLe_total _ _

theorem shardKeyLe_trans {a b c : Shard}
    (h1 : shardKeyLe a b = true) (h2 : shardKeyLe b c = true) : shardKeyLe a c = true :=
  charListLe_trans _ _ _ h1 h2

theorem mem_orderedInsertByStart (a x : Shard) (l : List Shard) :
    x ∈ orderedInsertByStart a l ↔ x = a ∨ x ∈ l := by
  induction l with
  | nil => simp [orderedInsertByStart]
  | cons b l ih =>
    simp only [orderedInsertByStart]
    split
    · simp
    · simp only [List.mem_cons, ih]
      tauto

theorem perm_orderedInsertByStart (a : Shard) (l : List Shard) :
    (orderedInsertByStart a l).Perm (a :: l) := by
  induction l with
  | nil => exact List.Perm.refl _
  | cons b l ih =>
    simp only [orderedInsertByStart]
    split
    · exact List.Perm.refl _
    · exact (ih.cons b).trans (List.Perm.swap a b l)

theorem perm_sortByStartKey (l : List Shard) : (sortByStartKey l).Perm l := by
  induction l with
  | nil => exact List.Perm.refl _
  | cons a l ih =>
    exact (perm_orderedInsertByStart a (sortByStartKey l)).trans (ih.cons a)

theorem pairwise_orderedInsertByStart (a : Shard) (l : List Shard)
    (h : List.Pairwise (fun x y => shardKeyLe x y = true) l) :
    List.Pairwise (fun x y => shardKeyLe x y = true) (orderedInsertByStart a l) := by
  induction l with
  | nil => simp [orderedInsertByStart]
  | cons b l ih =>
    simp only [orderedInsertByStart]
    rw [List.pairwise_cons] at h
    split
    · rename_i hab
      rw [List.pairwise_cons]
      constructor
      · intro x hx
        rw [List.mem_cons] at hx
        rcases hx with hx | hx
        · rw [hx]; exact hab
        · exact shardKeyLe_trans hab (h.1 x hx)
      · exact List.pairwise_cons.mpr h
    · rename_i hab
      rw [List.pairwise_cons]
      constructor
      · intro x hx
        rw [mem_orderedInsertByStart] at hx
        rcases hx with hx | hx
        · rw [hx]
          rcases shardKeyLe_total a b with hba | hba
          · exact absurd hba hab
          · exact hba
        · exact h.1 x hx
      · exact ih h.2

theorem pairwise_sortByStartKey (l : List Shard) :
    List.Pairwise (fun x y => shardKeyLe x y = true) (sortByStartKey l) := by
  induction l with
  | nil => simp [sortByStartKey]
  | cons a l ih => exact pairwise_orderedInsertByStart a (sortByStartKey l) ih

theorem shardTest_eq_of_wf {seq : String} {x : Shard}
    (hwx : wfShard x = true) (hs : tokOk seq = true) :
    shardTest seq x =
      if openTrigger seq x then ShardTestStep.keyErr
      else if containsSeq seq x then ShardTestStep.matches
      else ShardTestStep.nomatch := by
  simp only [wfShard, Bool.and_eq_true] at hwx
  have hds : isDigits seq = true := by
    simp only [tokOk, Bool.and_eq_true] at hs
    exact hs.1
  have hdx : isDigits x.SequenceNumberRange.StartingSequenceNumber = true := by
    have h1 := hwx.1
    simp only [tokOk, Bool.and_eq_true] at h1
    exact h1.1
  simp only [shardTest, parseNum?, hdx, hds, if_pos]
  cases he : x.SequenceNumberRange.EndingSequenceNumber with
  | none =>
    simp only [openTrigger, containsSeq, he, Option.isNone_none, Bool.true_and]
    by_cases hle : pyFloat x.SequenceNumberRange.StartingSequenceNumber ≤ pyFloat seq
    · simp [hle]
    · simp [hle]
  | some es =>
    have hes : isDigits es = true := by
      have h2 := hwx.2
      rw [he] at h2
      simp only [tokOk, Bool.and_eq_true] at h2
      exact h2.1
    simp only [openTrigger, containsSeq, he, Option.isNone_some, Bool.false_and,
      Bool.false_eq_true, if_false, hes, if_pos]
    by_cases hle : pyFloat x.SequenceNumberRange.StartingSequenceNumber ≤ pyFloat seq
    · by_cases hle2 : pyFloat seq ≤ pyFloat es
      · simp [hle, hle2]
      · simp [hle, hle2]
    · simp [hle]

theorem filterSeq_ok_of_no_err {seq : String} {l : List Shard}
    (h : ∀ x ∈ l, shardTest seq x =
      if containsSeq seq x then ShardTestStep.matches else ShardTestStep.nomatch) :
    filterSeq seq l = Except.ok (l.filter (containsSeq seq)) := by
  induction l with
  | nil => rfl
  | cons x rest ih =>
    have hx := h x (List.mem_cons_self x rest)
    have hrest := ih (fun y hy => h y (List.mem_cons_of_mem x hy))
    simp only [filterSeq, List.filter_cons]
    by_cases hc : containsSeq seq x = true
    · rw [hx, if_pos hc, hrest, if_pos hc]
    · rw [hx, if_neg hc, hrest, if_neg hc]

theorem filterSeq_keyError_of_trigger {seq : String} {l : List Shard}
    (h : ∀ x ∈ l, shardTest seq x =
      if openTrigger seq x then ShardTestStep.keyErr else ShardTestStep.nomatch)
    (hex : ∃ x ∈ l, openTrigger seq x = true) :
    filterSeq seq l = Except.error FindErr.keyError := by
  induction l with
  | nil =>
    rcases hex with ⟨x, hx, _⟩
    cases hx
  | cons x rest ih =>
    have hx := h x (List.mem_cons_self x rest)
    simp only [filterSeq]
    by_cases ht : openTrigger seq x = true
    · rw [hx, if_pos ht]
    · rw [hx, if_neg ht]
      apply ih (fun y hy => h y (List.mem_cons_of_mem x hy))
      rcases hex with ⟨y, hy, hty⟩
      rw [List.mem_cons] at hy
      rcases hy with hy | hy
      · rw [hy] at hty
        exact absurd hty ht
      · exact ⟨y, hy, hty⟩

/-- C2 (amended): under the code's `float()` comparison — decimal tokens
correctly rounded to 53-bit doubles — for a well-formed snapshot in which
every open descriptor's start lies strictly above the position (so no float
collision fires the `KeyError` fallback) and the position lies strictly
inside the closed descriptor that is the unique descriptor containing it,
`find_shard_info` returns that exact descriptor. -/
theorem spec_c2_locate_strict_contained (arr : List Shard) (seq : String) (A : Shard)
    (hwf : ∀ x ∈ arr, wfShard x = true) (hseq : tokOk seq = true)
    (hopen : ∀ x ∈ arr, x.SequenceNumberRange.EndingSequenceNumber = none →
      pyFloat seq < pyFloat x.SequenceNumberRange.StartingSequenceNumber)
    (hA : A ∈ arr) (hin : strictlyInside seq A = true)
    (huniq : ∀ B ∈ arr, containsSeq seq B = true → B = A) :
    find_shard_info arr seq = FindResult.found A := by
  have hstep : ∀ x ∈ arr, shardTest seq x =
      if containsSeq seq x then ShardTestStep.matches else ShardTestStep.nomatch := by
    intro x hx
    rw [shardTest_eq_of_wf (hwf x hx) hseq]
    have htr : openTrigger seq x = false := by
      cases he : x.SequenceNumberRange.EndingSequenceNumber with
      | none =>
        have hlt := hopen x hx he
        simp only [openTrigger, he, Option.isNone_none, Bool.true_and]
        exact decide_eq_false (by omega)
      | some es => simp [openTrigger, he]
    rw [htr]
    simp
  have hAc : containsSeq seq A = true := by
    cases he : A.SequenceNumberRange.EndingSequenceNumber with
    | none => simp [strictlyInside, he] at hin
    | some es =>
      simp only [strictlyInside, he, Bool.and_eq_true, decide_eq_true_eq] at hin
      simp only [containsSeq, he, Bool.and_eq_true, decide_eq_true_eq]
      omega
  unfold find_shard_info
  rw [filterSeq_ok_of_no_err hstep]
  have hmem : A ∈ arr.filter (containsSeq seq) := List.mem_filter.mpr ⟨hA, hAc⟩
  cases hfl : arr.filter (containsSeq seq) with
  | nil => rw [hfl] at hmem; cases hmem
  | cons hd tl =>
    have hhd : hd ∈ arr.filter (containsSeq seq) := by
      rw [hfl]
      exact List.mem_cons_self hd tl
    have hhd2 := List.mem_filter.mp hhd
    have heq : hd = A := huniq hd hhd2.1 hhd2.2
    rw [heq]

def wit2Shard : Shard := ⟨"shardId-w2", none, ⟨"100", some "200"⟩⟩

theorem spec_c2_witness : find_shard_info [wit2Shard] "150" = FindResult.found wit2Shard :=
  spec_c2_locate_strict_contained [wit2Shard] "150" wit2Shard (by decide) (by decide)
    (by decide) (by decide) (by decide) (by decide)

def cx2Open : Shard := ⟨"shardId-open", none, ⟨"50", none⟩⟩

def cx2Closed : Shard := ⟨"shardId-closed", none, ⟨"100", some "200"⟩⟩

/-- C2 as stated is false: the position `"150"` lies strictly inside the
closed descriptor, yet an open descriptor earlier in the snapshot whose start
does not exceed the position makes the filter raise `KeyError`, and the
caught fallback returns that open shard instead of the closed container. -/
theorem spec_c2_counterexample :
    cx2Closed ∈ [cx2Open, cx2Closed] ∧ strictlyInside "150" cx2Closed = true ∧
    find_shard_info [cx2Open, cx2Closed] "150" = FindResult.found cx2Open ∧
    cx2Open ≠ cx2Closed := by decide

/-- C3 (amended): under the code's `float()` comparison — decimal tokens
correctly rounded to 53-bit doubles — for a well-formed snapshot and a
position contained in no descriptor's recorded range, `find_shard_info`
never raises; it returns the first open shard exactly when some open
descriptor's rounded start does not exceed the rounded position (firing the
caught `KeyError`, which float collisions on long tokens can also cause),
and an absent result otherwise — even when open shards exist. -/
theorem spec_c3_fallback (arr : List Shard) (seq : String)
    (hwf : ∀ x ∈ arr, wfShard x = true) (hseq : tokOk seq = true)
    (hnc : ∀ x ∈ arr, containsSeq seq x = false) :
    ((∃ x ∈ arr, openTrigger seq x = true) →
      ∃ h t, get_open_shards arr = h :: t ∧ find_shard_info arr seq = FindResult.found h)
    ∧ ((∀ x ∈ arr, openTrigger seq x = false) →
      find_shard_info arr seq = FindResult.notFound) := by
  have hstep : ∀ x ∈ arr, shardTest seq x =
      if openTrigger seq x then ShardTestStep.keyErr else ShardTestStep.nomatch := by
    intro x hx
    rw [shardTest_eq_of_wf (hwf x hx) hseq, hnc x hx]
    simp
  constructor
  · intro hex
    have hfe := filterSeq_keyError_of_trigger hstep hex
    rcases hex with ⟨x, hx, htx⟩
    have hxopen : is_shard_open x = true := by
      simp only [openTrigger, Bool.and_eq_true] at htx
      exact htx.1
    have hxmem : x ∈ get_open_shards arr := List.mem_filter.mpr ⟨hx, hxopen⟩
    cases hgo : get_open_shards arr with
    | nil => rw [hgo] at hxmem; cases hxmem
    | cons h t =>
      refine ⟨h, t, rfl, ?_⟩
      unfold find_shard_info
      rw [hfe, hgo]
  · intro hall
    have hstep2 : ∀ x ∈ arr, shardTest seq x =
        if containsSeq seq x then ShardTestStep.matches else ShardTestStep.nomatch := by
      intro x hx
      rw [hstep x hx, hall x hx, hnc x hx]
      simp
    have hfil : arr.filter (containsSeq seq) = [] := by
      rw [List.filter_eq_nil_iff]
      intro a ha
      simp [hnc a ha]
    unfold find_shard_info
    rw [filterSeq_ok_of_no_err hstep2, hfil]

def wit3Shard : Shard := ⟨"shardId-w3", none, ⟨"50", none⟩⟩

theorem spec_c3_witness :
    ∃ h t, get_open_shards [wit3Shard] = h :: t ∧
      find_shard_info [wit3Shard] "100" = FindResult.found h :=
  (spec_c3_fallback [wit3Shard] "100" (by decide) (by decide) (by decide)).1 (by decide)

def cx3Open : Shard := ⟨"shardId-E", none, ⟨"500", none⟩⟩

/-- C3 as stated is false: the position `"100"` is in no recorded range and an
open shard exists in the snapshot, yet `find_shard_info` returns an absent
result rather than that open shard, because the open shard's start exceeds
the position so the `KeyError` fallback never fires. -/
theorem spec_c3_counterexample :
    (∀ x ∈ [cx3Open], containsSeq "100" x = false) ∧ is_shard_open cx3Open = true ∧
    find_shard_info [cx3Open] "100" = FindResult.notFound := by decide

def cx4a : Shard := ⟨"shard-00A", some "shard-root", ⟨"9", some "15"⟩⟩

def cx4b : Shard := ⟨"shard-00B", some "shard-root", ⟨"10", some "20"⟩⟩

def cx4y : Shard := ⟨"shard-00A", some "shard-root", ⟨"5", some "6"⟩⟩

def cx4z : Shard := ⟨"shard-00Z", some "shard-root", ⟨"5", some "7"⟩⟩

/-- C4 evaluated at the failing inputs: `get_closed_shards` sorts the raw
start strings, placing start `"10"` before start `"9"` although its numeric
value is larger, and on equal starts it keeps snapshot order (the stable
sort) rather than breaking the tie by `shard_id`: the lexicographically
larger id `"shard-00Z"` stays before `"shard-00A"`. -/
theorem spec_c4_code_eval :
    get_closed_shards [cx4a, cx4b] = [cx4b, cx4a] ∧
    parseNat cx4b.SequenceNumberRange.StartingSequenceNumber >
      parseNat cx4a.SequenceNumberRange.StartingSequenceNumber ∧
    get_closed_shards [cx4z, cx4y] = [cx4z, cx4y] ∧
    cx4z.SequenceNumberRange.StartingSequenceNumber
      = cx4y.SequenceNumberRange.StartingSequenceNumber ∧
    strLe cx4z.ShardId cx4y.ShardId = false := by decide

/-- C5 (amended): when the resume position resolves to no shard and an open
shard exists, `process_records` drains every closed shard of the snapshot —
the drained list is a permutation of the closed descriptors, ordered
ascending by the raw start string (the code's lexicographic sort key, not
the numeric value) — each with a `TRIM_HORIZON` closed-shard
`get_stream_data` call, and then tails the first open shard from
`TRIM_HORIZON`. -/
theorem spec_c5_no_shard_plan (arr : List Shard) (seq : String) (limit : Option Nat)
    (fuel : Nat) (o : Shard) (orest : List Shard)
    (hnf : find_shard_info arr seq = FindResult.notFound)
    (hopen : get_open_shards arr = o :: orest) :
    process_records_plan arr seq limit fuel =
      some (trim_horizon_closed_shards_calls (get_closed_shards arr)
        ++ [⟨true, limit, "TRIM_HORIZON", o.ShardId, none⟩])
    ∧ (get_closed_shards arr).Perm
        (arr.filter (fun x => x.SequenceNumberRange.EndingSequenceNumber.isSome))
    ∧ List.Pairwise (fun a b => shardKeyLe a b = true) (get_closed_shards arr) := by
  refine ⟨?_, perm_sortByStartKey _, pairwise_sortByStartKey _⟩
  unfold process_records_plan
  rw [hnf, hopen]
  rfl

def wit5c : Shard := ⟨"shard-w5c", some "shard-w5r", ⟨"100", some "150"⟩⟩

def wit5o : Shard := ⟨"shard-w5o", some "shard-w5r", ⟨"200", none⟩⟩

theorem spec_c5_witness :
    process_records_plan [wit5c, wit5o] "5" (some 7) 3 =
      some (trim_horizon_closed_shards_calls (get_closed_shards [wit5c, wit5o])
        ++ [⟨true, some 7, "TRIM_HORIZON", wit5o.ShardId, none⟩])
    ∧ (get_closed_shards [wit5c, wit5o]).Perm
        ([wit5c, wit5o].filter (fun x => x.SequenceNumberRange.EndingSequenceNumber.isSome))
    ∧ List.Pairwise (fun a b => shardKeyLe a b = true) (get_closed_shards [wit5c, wit5o]) :=
  spec_c5_no_shard_plan [wit5c, wit5o] "5" (some 7) 3 wit5o [] (by decide) (by decide)

def cx5a : Shard := ⟨"shard-A", some "shard-r", ⟨"90", some "95"⟩⟩

def cx5b : Shard := ⟨"shard-B", some "shard-r", ⟨"100", some "110"⟩⟩

def cx5o : Shard := ⟨"shard-O", some "shard-r", ⟨"200", none⟩⟩

/-- C5 as stated is false: with no shard found for the position, the plan
drains the closed shard with numeric start 100 before the one with numeric
start 90, because the drain order sorts the raw strings and `"100"` is
lexicographically below `"90"` — not ascending numeric-start order. -/
theorem spec_c5_counterexample :
    find_shard_info [cx5a, cx5b, cx5o] "5" = FindResult.notFound ∧
    process_records_plan [cx5a, cx5b, cx5o] "5" none 3 =
      some [⟨false, none, "TRIM_HORIZON", "shard-B", none⟩,
            ⟨false, none, "TRIM_HORIZON", "shard-A", none⟩,
            ⟨true, none, "TRIM_HORIZON", "shard-O", none⟩] ∧
    parseNat cx5b.SequenceNumberRange.StartingSequenceNumber >
      parseNat cx5a.SequenceNumberRange.StartingSequenceNumber := by decide

theorem get_closed_children_aux (arr : List Shard) (chain : List Shard) :
    ∀ (s : Shard) (fuel : Nat) (acc : List Shard),
      allParentsPresent arr = true →
      isChainFrom arr s chain = true →
      chain.length < fuel →
      get_closed_children_shards arr fuel s acc = ChildrenResult.ok (acc ++ chain) := by
  induction chain with
  | nil =>
    intro s fuel acc hp hc hl
    cases fuel with
    | zero => omega
    | succ f =>
      simp only [get_closed_children_shards, hp, if_true]
      simp only [isChainFrom] at hc
      cases hcf : childFilter arr s.ShardId with
      | nil => simp
      | cons c t =>
        rw [hcf] at hc
        simp only [List.head?_cons, Bool.not_eq_true'] at hc
        simp [hc]

  | cons b rest ih =>
    intro s fuel acc hp hc hl
    cases fuel with
    | zero => omega
    | succ f =>
      simp only [isChainFrom, Bool.and_eq_true] at hc
      obtain ⟨⟨hhd, hclosed⟩, hrest⟩ := hc
      rw [beq_iff_eq] at hhd
      cases hcf : childFilter arr s.ShardId with
      | nil => rw [hcf] at hhd; cases hhd
      | cons c t =>
        rw [hcf] at hhd
        simp only [List.head?_cons, Option.some.injEq] at hhd
        simp only [get_closed_children_shards, hp, if_true, hcf, hhd, hclosed, if_true]
        have := ih b f (acc ++ [b]) hp hrest (by simp at hl ⊢; omega)
        rw [this]
        simp

/-- C6 (amended): provided every descriptor in the snapshot carries a
`parent_shard_id` field — the child filter subscripts it on every element,
so one missing field raises `KeyError` — a walk started at the head of an
N-shard closed chain terminates within N steps of fuel and returns exactly
the N−1 closed descendants in chain order, the first open descendant
excluded. -/
theorem spec_c6_chain_walk (arr : List Shard) (s : Shard) (chain : List Shard) (fuel : Nat)
    (hp : allParentsPresent arr = true) (hc : isChainFrom arr s chain = true)
    (hl : chain.length < fuel) :
    get_closed_children_shards arr fuel s [] = ChildrenResult.ok chain := by
  have h := get_closed_children_aux arr chain s fuel [] hp hc hl
  simpa using h

def wit6a : Shard := ⟨"cw-A", some "cw-root", ⟨"1", some "2"⟩⟩

def wit6b : Shard := ⟨"cw-B", some "cw-A", ⟨"3", some "4"⟩⟩

def wit6c : Shard := ⟨"cw-C", some "cw-B", ⟨"5", some "6"⟩⟩

def wit6d : Shard := ⟨"cw-D", some "cw-C", ⟨"7", none⟩⟩

theorem spec_c6_witness :
    get_closed_children_shards [wit6a, wit6b, wit6c, wit6d] 3 wit6a []
      = ChildrenResult.ok [wit6b, wit6c] :=
  spec_c6_chain_walk [wit6a, wit6b, wit6c, wit6d] wit6a [wit6b, wit6c] 3
    (by decide) (by decide) (by decide)

def cx6a : Shard := ⟨"c6-A", none, ⟨"1", some "2"⟩⟩

def cx6b : Shard := ⟨"c6-B", some "c6-A", ⟨"3", some "4"⟩⟩

/-- C6 as stated is false: a snapshot holding a two-shard closed chain whose
root descriptor lacks the `ParentShardId` key makes the walk raise `KeyError`
instead of returning the one closed descendant. -/
theorem spec_c6_counterexample :
    cx6b.ParentShardId = some cx6a.ShardId ∧
    cx6b.SequenceNumberRange.EndingSequenceNumber.isSome = true ∧
    get_closed_children_shards [cx6a, cx6b] 3 cx6a [] = ChildrenResult.keyError := by decide

theorem children_walk_mem_aux (arr : List Shard) :
    ∀ (fuel : Nat) (s : Shard) (acc res : List Shard),
      get_closed_children_shards arr fuel s acc = ChildrenResult.ok res →
      ∀ x ∈ res, x ∈ acc ∨
        ∃ p, x.ParentShardId = some p ∧ (childFilter arr p).head? = some x := by
  intro fuel
  induction fuel with
  | zero => intro s acc res h; cases h
  | succ f ih =>
    intro s acc res h
    simp only [get_closed_children_shards] at h
    by_cases hp : allParentsPresent arr = true
    · rw [if_pos hp] at h
      cases hcf : childFilter arr s.ShardId with
      | nil =>
        rw [hcf] at h
        simp only [ChildrenResult.ok.injEq] at h
        intro x hx
        left
        rw [h]
        exact hx
      | cons c t =>
        rw [hcf] at h
        by_cases hcl : c.SequenceNumberRange.EndingSequenceNumber.isSome = true
        · simp only [hcl, if_true] at h
          intro x hx
          rcases ih c (acc ++ [c]) res h x hx with hmem | hP
          · rw [List.mem_append] at hmem
            rcases hmem with hmem | hmem
            · left; exact hmem
            · right
              simp only [List.mem_singleton] at hmem
              have hcmem : c ∈ childFilter arr s.ShardId := by
                rw [hcf]
                exact List.mem_cons_self c t
              have hpar := (List.mem_filter.mp hcmem).2
              rw [beq_iff_eq] at hpar
              refine ⟨s.ShardId, ?_, ?_⟩
              · rw [hmem]; exact hpar
              · rw [hmem, hcf]; rfl
          · right; exact hP
        · simp only [hcl, Bool.false_eq_true, if_false, ChildrenResult.ok.injEq] at h
          intro x hx
          left
          rw [h]
          exact hx
    · rw [if_neg hp] at h
      cases h

/-- C9: every shard the child-chain walk returns is the first descriptor in
snapshot order among its parent's children, so when a shard has two or more
children only the first child in snapshot order is followed and returned at
each step, and sibling children never appear in the returned descendant
list. -/
theorem spec_c9_first_child_only (arr : List Shard) (fuel : Nat) (s : Shard)
    (res : List Shard) (x : Shard)
    (h : get_closed_children_shards arr fuel s [] = ChildrenResult.ok res)
    (hx : x ∈ res) :
    ∃ p, x.ParentShardId = some p ∧ (childFilter arr p).head? = some x := by
  rcases children_walk_mem_aux arr fuel s [] res h x hx with hmem | hP
  · cases hmem
  · exact hP

def wit9a : Shard := ⟨"c9-A", some "c9-r", ⟨"1", some "2"⟩⟩

def wit9b : Shard := ⟨"c9-B", some "c9-A", ⟨"3", some "4"⟩⟩

def wit9c : Shard := ⟨"c9-C", some "c9-A", ⟨"5", some "6"⟩⟩

theorem spec_c9_witness :
    ∃ p, wit9b.ParentShardId = some p ∧
      (childFilter [wit9a, wit9b, wit9c] p).head? = some wit9b :=
  spec_c9_first_child_only [wit9a, wit9b, wit9c] 3 wit9a [wit9b] wit9b
    (by decide) (by decide)

/-- C7: `create_shard_iterator` fails — before any collaborator request is
built — exactly when the iterator type is not one of the four valid types,
or a sequence-relative type is given without a `SequenceNumber`; dually it
proceeds to request the iterator exactly on the valid combinations. -/
theorem spec_c7_iterator_validation (arn t sid : String) (sn : Option String) :
    iterFails (create_shard_iterator arn t sid sn)
      = (!(validIteratorTypes.contains t)
         || ((t == "AFTER_SEQUENCE_NUMBER" || t == "AT_SEQUENCE_NUMBER") && sn.isNone))
    ∧ iterProceeds (create_shard_iterator arn t sid sn)
      = (validIteratorTypes.contains t
         && (!(t == "AFTER_SEQUENCE_NUMBER" || t == "AT_SEQUENCE_NUMBER") || sn.isSome)) := by
  cases hv : validIteratorTypes.contains t with
  | false => simp only [create_shard_iterator, hv, iterFails, iterProceeds]; simp
  | true =>
    cases hr : (t == "AFTER_SEQUENCE_NUMBER" || t == "AT_SEQUENCE_NUMBER") with
    | false =>
      simp only [create_shard_iterator, hv, hr, iterFails, iterProceeds]
      simp
    | true =>
      cases sn with
      | none =>
        simp only [create_shard_iterator, hv, hr, iterFails, iterProceeds]
        simp
      | some s =>
        simp only [create_shard_iterator, hv, hr, iterFails, iterProceeds]
        simp

def cx1Event : IterEvent := ⟨⟨[], none⟩, false, []⟩

/-- C1 evaluated on the code: a fetched page without `NextShardIterator` ends
a closed-shard session in the terminal normal exit after that fetch, but the
same condition on an open-shard tail raises `TypeError` — the loop
subscripts the `None` returned by `get_data_from_shard` — instead of
proceeding to a shard-state re-check. -/
theorem spec_c1_page_without_next :
    get_stream_data false "shardId-1" none [cx1Event] 0
      = (StreamOutcome.normalExit, 1) ∧
    get_stream_data true "shardId-1" none [cx1Event] 0
      = (StreamOutcome.typeErrorNone, 1) := by decide

theorem stream_budget_aux (open_shard : Bool) (shard_id : String) (n : Nat) :
    ∀ (k : Nat) (c : Nat) (events : List IterEvent),
      k ≠ 0 → c + k = n → k ≤ events.length →
      (∀ e ∈ events.take k, goodEvent open_shard shard_id e = true) →
      get_stream_data open_shard shard_id (some n) events c
        = (StreamOutcome.normalExit, k) := by
  intro k
  induction k with
  | zero => intro c events h0; exact absurd rfl h0
  | succ k ih =>
    intro c events _ hsum hlen hgood
    cases events with
    | nil => simp at hlen
    | cons e rest =>
      have hge : goodEvent open_shard shard_id e = true := by
        apply hgood
        rw [List.take_succ_cons]
        exact List.mem_cons_self e (rest.take k)
      simp only [goodEvent, Bool.and_eq_true] at hge
      obtain ⟨hnext, hre⟩ := hge
      have hnn : e.page.NextShardIterator.isNone = false := by
        cases hh : e.page.NextShardIterator with
        | none => rw [hh] at hnext; cases hnext
        | some v => simp [hh]
      have hrn : recheckResult open_shard shard_id e = none :=
        Option.isNone_iff_eq_none.mp hre
      simp only [get_stream_data, hnn, Bool.false_eq_true, if_false, hrn]
      have hn0 : ¬ (n = 0) := by omega
      rw [if_neg hn0]
      by_cases hck : c = n - 1
      · have hk0 : k = 0 := by omega
        rw [if_pos hck, hk0]
      · have hk1 : k ≠ 0 := by omega
        rw [if_neg hck]
        have hgood' : ∀ x ∈ rest.take k, goodEvent open_shard shard_id x = true := by
          intro x hx
          apply hgood
          rw [List.take_succ_cons]
          exact List.mem_cons_of_mem e hx
        have hlen' : k ≤ rest.length := by
          simp only [List.length_cons] at hlen
          omega
        have hih := ih (c + 1) rest hk1 (by omega) hlen' hgood'
        rw [hih]

theorem recheckResult_fetch_one {open_shard : Bool} {shard_id : String} {e : IterEvent}
    {r : StreamOutcome × Nat} (h : recheckResult open_shard shard_id e = some r) :
    r.2 = 1 := by
  unfold recheckResult at h
  split at h
  · split at h
    · injection h with h2
      rw [← h2]
    · split at h
      · injection h with h2
        rw [← h2]
      · cases h
  · cases h

theorem stream_budget_bound_aux (open_shard : Bool) (shard_id : String) (n : Nat) :
    ∀ (events : List IterEvent) (c : Nat), c < n →
      (get_stream_data open_shard shard_id (some n) events c).2 ≤ n - c := by
  intro events
  induction events with
  | nil =>
    intro c hc
    simp [get_stream_data]
  | cons e rest ih =>
    intro c hc
    simp only [get_stream_data]
    by_cases hnn : e.page.NextShardIterator.isNone = true
    · rw [if_pos hnn]
      cases open_shard
      · simp
        omega
      · simp
        omega
    · rw [if_neg hnn]
      cases hrc : recheckResult open_shard shard_id e with
      | some r =>
        have h1 := recheckResult_fetch_one hrc
        simp only [hrc]
        omega
      | none =>
        simp only [hrc]
        have hn0 : ¬ (n = 0) := by omega
        rw [if_neg hn0]
        by_cases hck : c = n - 1
        · rw [if_pos hck]
          simp
          omega
        · rw [if_neg hck]
          have hrec := ih (c + 1) (by omega)
          simp only []
          omega

/-- C8 (amended): with a record budget n ≥ 1, every session — whatever pages
and re-checks its script holds — performs at most n page fetches; and when
each of the first n scripted pages carries a `NextShardIterator` and no
firing state re-check ends the tail, the loop performs exactly n page
fetches and then returns via the budget break, whether the shard is read as
open or closed. -/
theorem spec_c8_budget (open_shard : Bool) (shard_id : String) (n : Nat)
    (events : List IterEvent) (h1 : 1 ≤ n) :
    (get_stream_data open_shard shard_id (some n) events 0).2 ≤ n
    ∧ (n ≤ events.length →
      (∀ e ∈ events.take n, goodEvent open_shard shard_id e = true) →
      get_stream_data open_shard shard_id (some n) events 0
        = (StreamOutcome.normalExit, n)) := by
  constructor
  · have h := stream_budget_bound_aux open_shard shard_id n events 0 (by omega)
    omega
  · intro hlen hgood
    exact stream_budget_aux open_shard shard_id n n 0 events (by omega) (by omega) hlen hgood

def wit8Event : IterEvent := ⟨⟨["record-1"], some "iter-tok"⟩, false, []⟩

theorem spec_c8_witness :
    (get_stream_data false "shardId-w8" (some 2) [wit8Event, wit8Event] 0).2 ≤ 2 ∧
    get_stream_data false "shardId-w8" (some 2) [wit8Event, wit8Event] 0
      = (StreamOutcome.normalExit, 2) :=
  ⟨(spec_c8_budget false "shardId-w8" 2 [wit8Event, wit8Event] (by decide)).1,
   (spec_c8_budget false "shardId-w8" 2 [wit8Event, wit8Event] (by decide)).2
     (by decide) (by decide)⟩

def cx8Event : IterEvent := ⟨⟨[], none⟩, false, []⟩

/-- C8 as stated is false: with budget 3 on a closed shard whose first page
already lacks `NextShardIterator`, the session ends after a single page
fetch, not after exactly 3. -/
theorem spec_c8_counterexample :
    get_stream_data false "shardId-x8" (some 3) [cx8Event] 0
      = (StreamOutcome.normalExit, 1) ∧ (1 : Nat) ≠ 3 := by decide

/-- C10: `filter_shard_array` yields the `IndexError` on a shard id matching
no descriptor of the given array, and consequently an open-shard tail whose
firing state re-check refreshes a snapshot no longer listing the tailed
shard ends in that unhandled `IndexError` after the current fetch, not in a
detected-closed result. -/
theorem spec_c10_missing_shard (sid : String) (arr : List Shard) (e : IterEvent)
    (events : List IterEvent) (counter : Nat)
    (hmiss : ∀ x ∈ arr, x.ShardId ≠ sid)
    (hnext : e.page.NextShardIterator.isSome = true)
    (helapsed : e.elapsed = true)
    (hsnap : e.snapshot = arr) :
    filter_shard_array sid arr = none ∧
    get_stream_data true sid none (e :: events) counter
      = (StreamOutcome.indexError, 1) := by
  have hfil : arr.filter (fun x => x.ShardId == sid) = [] := by
    rw [List.filter_eq_nil_iff]
    intro a ha
    simp [hmiss a ha]
  have hfa : filter_shard_array sid arr = none := by
    unfold filter_shard_array
    rw [hfil]
    rfl
  refine ⟨hfa, ?_⟩
  have hnn : e.page.NextShardIterator.isNone = false := by
    cases hh : e.page.NextShardIterator with
    | none => rw [hh] at hnext; cases hnext
    | some v => simp [hh]
  have hrr : recheckResult true sid e = some (StreamOutcome.indexError, 1) := by
    unfold recheckResult
    rw [helapsed, hsnap, hfa]
    rfl
  simp only [get_stream_data, hnn, Bool.false_eq_true, if_false, hrr]

def wit10Event : IterEvent := ⟨⟨["rec"], some "tok"⟩, true, []⟩

theorem spec_c10_witness :
    filter_shard_array "shardId-gone" [] = none ∧
    get_stream_data true "shardId-gone" none [wit10Event] 0
      = (StreamOutcome.indexError, 1) :=
  spec_c10_missing_shard "shardId-gone" [] wit10Event [] 0 (by decide) (by decide)
    (by decide) (by decide)
